import Mathlib

/-!
Verification of the ASR model-manager / file-transcriber core.

Shallow embedding of `src/core/asr/model_manager.py`,
`src/core/audio/file_transcriber.py` and `src/core/plugins/plugin_registry.py`.
Strings are modelled by Lean `String`/`List Char`; Python `None`-able strings
by `Option String`; the filesystem and the external engine constructors by
explicit function-valued environments.
-/

/-! ## Text shaping: `FileTranscriber._format_text` -/

/-- The terminal punctuation characters of `_format_text`
(`['.', '?', '!', ',', ';', ':', '-']` in the source). -/
def terminal_punct : List Char := ['.', '?', '!', ',', ';', ':', '-']
/-- The fixed closed set of interrogative/auxiliary lead words
(`question_starters` in the source). -/
def question_starters : List (List Char) :=
  ["what".data, "who".data, "where".data, "when".data, "why".data, "how".data,
   "is".data, "are".data, "do".data, "does".data, "did".data,
   "can".data, "could".data, "will".data, "would".data]
/-- `text[0].upper() + text[1:]` on the character list of a nonempty string. -/
def capitalized : List Char → List Char
  | [] => []
  | c :: cs => Char.toUpper c :: cs
/-- `if text[-1] not in ['.', '?', '!', ',', ';', ':', '-']: text += '.'`.
The `' '` default of `getLastD` is never used: the function is applied to
nonempty lists only. -/
def with_terminal (l : List Char) : List Char :=
  if l.getLastD ' ' ∈ terminal_punct then l else l ++ ['.']
/-- `text.split()[0]`: the first maximal run of non-whitespace characters
(empty when the text is all whitespace, in which case Python's split yields
no words at all). -/
def first_word (l : List Char) : List Char :=
  (l.dropWhile Char.isWhitespace).takeWhile (fun c => !c.isWhitespace)
/-- `words and words[0].lower() in question_starters`. -/
def is_question (l : List Char) : Bool :=
  decide (first_word l ≠ [] ∧ (first_word l).map Char.toLower ∈ question_starters)
/-- The question-mark rewrite: `if text[-1] == '.': text = text[:-1] + '?'`,
guarded by `is_question`. -/
def questionify (l : List Char) : List Char :=
  if is_question l then
    (if l.getLastD ' ' = '.' then l.dropLast ++ ['?'] else l)
  else l
/-- Character-list body of `FileTranscriber._format_text`: empty text is
returned unchanged; otherwise capitalize the first character, ensure a
terminal punctuation character, then apply the question rewrite. -/
def formatChars (l : List Char) : List Char :=
  match l with
  | [] => []
  | _ :: _ => questionify (with_terminal (capitalized l))
/-- `FileTranscriber._format_text` (file_transcriber.py lines 626-654). -/
def _format_text (s : String) : String := String.mk (formatChars s.data)
/-! ## The ASR model manager: data model

`ASRModelManager` state (model_manager.py `__init__`), the filesystem as seen
through `os.path.exists`/`os.path.isdir`, and the engine adapters as seen
through the attribute probes the manager performs (`isinstance`, `hasattr`,
`getattr`). Python `None`-able strings are `Option String`; an absent
attribute is `none`. -/

/-- The filesystem oracle: `os.path.exists` and `os.path.isdir`. -/
structure FileSystem where
  pathExists : String → Bool
  isDir : String → Bool
/-- `os.path.join` with a relative second component. -/
def path_join (a b : String) : String := a ++ "/" ++ b
/-- Python truthiness of an optional string (`None` and `""` are falsy). -/
def truthy : Option String → Bool
  | none => false
  | some s => !s.isEmpty
/-- Python's `sub in s` substring test. -/
def py_in (sub s : String) : Bool := decide (sub.data <:+: s.data)
/-- Python's `s.startswith(pre)`. -/
def py_startswith (pre s : String) : Bool := decide (pre.data <+: s.data)
/-- Python's `s.endswith(suf)`. -/
def py_endswith (suf s : String) : Bool := decide (suf.data <:+ s.data)
/-- Python's `str.lower()`. -/
def py_lower (s : String) : String := String.mk (s.data.map Char.toLower)
/-- One entry of `models_config`: the fields the manager reads
(`path`, `enabled`, and the `"type"` key read as `get("type", default)`). -/
structure ModelCfg where
  path : String := ""
  enabled : Bool := false
  ctype : Option String := none
deriving DecidableEq
/-- `models_config.get(name)` over the configuration mapping. -/
def lookupCfg (cfgs : List (String × ModelCfg)) (name : String) : Option ModelCfg :=
  (cfgs.find? (fun p => p.1 == name)).map (fun p => p.2)
/-- The concrete class of the engine object, as tested by `isinstance`. -/
inductive EngineClass
  | voskASR
  | sherpaOnnxASR
  | otherEngine
deriving DecidableEq
/-- The `model_config` attribute of a Sherpa engine: the `"name"` and
`"type"` keys read with `.get`. -/
structure SherpaModelConfig where
  name : Option String := none
  ctype : Option String := none
deriving DecidableEq
/-- An engine adapter as the manager observes it. `engine_type = none` models
an absent attribute; `is_int8` models `hasattr(e, 'is_int8') and e.is_int8`
(the manager only ever tests that conjunction and its negation);
`model_config = none` models an absent or falsy `model_config` attribute;
`model_ok`/`recognizer_ok` are the truthiness of a Vosk engine's `model` and
`recognizer`; `has_transcribe_file` is `hasattr(e, 'transcribe_file')`. -/
structure Engine where
  cls : EngineClass
  engine_type : Option String := none
  model_dir : String := ""
  is_int8 : Bool := false
  model_config : Option SherpaModelConfig := none
  model_ok : Bool := true
  recognizer_ok : Bool := true
  has_transcribe_file : Bool := false
deriving DecidableEq
/-- `ASRModelManager` state. `current_model` keeps only its truthiness. -/
structure Manager where
  models_config : List (String × ModelCfg)
  current_model : Bool := false
  model_type : Option String := none
  current_engine : Option Engine := none
  current_model_type : Option String := none
  current_device : Bool := false
  is_recognizing : Bool := false
deriving DecidableEq
/-- The Qt signals the manager emits (payload messages dropped). -/
inductive Event
  | model_loaded (ok : Bool)
  | recognition_started
  | recognition_stopped
  | status_updated
  | error_occurred
deriving DecidableEq
/-! ## `validate_model_files` and `_validate_model_path` -/

/-- The Vosk directory template: the model directory exists and is a
directory, holds an `am` subdirectory, and `am/final.mdl` exists
(the shared body of both validators' Vosk branch). -/
def voskLayoutOk (fs : FileSystem) (model_path : String) : Bool :=
  if fs.pathExists model_path && fs.isDir model_path then
    if fs.pathExists (path_join model_path "am") && fs.isDir (path_join model_path "am") then
      fs.pathExists (path_join (path_join model_path "am") "final.mdl")
    else false
  else false
/-- The required-file list of the Sherpa template, parameterized by the
quantization flag and the 0626 version tag. -/
def sherpa_required_files (is_int8 is_0626 : Bool) : List String :=
  (["encoder", "decoder", "joiner"].map (fun base =>
    if is_0626 then
      if is_int8 then base ++ "-epoch-99-avg-1-chunk-16-left-128.int8.onnx"
      else base ++ "-epoch-99-avg-1-chunk-16-left-128.onnx"
    else
      if is_int8 then base ++ "-epoch-99-avg-1.int8.onnx"
      else base ++ "-epoch-99-avg-1.onnx")) ++ ["tokens.txt"]
/-- Every required Sherpa file exists under the model path. -/
def sherpaLayoutOk (fs : FileSystem) (model_path : String) (is_int8 is_0626 : Bool) : Bool :=
  (sherpa_required_files is_int8 is_0626).all
    (fun f => fs.pathExists (path_join model_path f))
/-- The Sherpa branch shared verbatim by `validate_model_files` and
`_validate_model_path`: read `models_config[model_type]["type"]`
(default `"standard"`), lowercase it, and check the template files. -/
def sherpaValidate (m : Manager) (fs : FileSystem) (model_path mt : String) : Bool :=
  let model_config := (lookupCfg m.models_config mt).getD {}
  let config_model_type := py_lower (model_config.ctype.getD "standard")
  sherpaLayoutOk fs model_path (config_model_type == "int8") (py_in "0626" mt)
/-- `ASRModelManager.validate_model_files` (model_manager.py lines 96-183).
Note the dispatch `model_type == "vosk_small" or "vosk" in model_path.lower()`
of line 119: the path string participates in the classification. -/
def validate_model_files (m : Manager) (fs : FileSystem) (model_path : String)
    (model_type_arg : Option String) : Bool :=
  let model_type := if model_type_arg.isNone then m.model_type else model_type_arg
  if !fs.pathExists model_path then false
  else if model_type == some "vosk_small" || py_in "vosk" (py_lower model_path) then
    voskLayoutOk fs model_path
  else if truthy model_type && py_startswith "sherpa" (model_type.getD "") then
    sherpaValidate m fs model_path (model_type.getD "")
  else false
/-- `ASRModelManager._validate_model_path` (model_manager.py lines 391-479):
same templates, but the dispatch is on the model type alone. -/
def _validate_model_path (m : Manager) (fs : FileSystem) (model_path : String)
    (model_type_arg : Option String) : Bool :=
  if model_path == "" then false
  else if !fs.pathExists model_path then false
  else
    let model_type := if model_type_arg.isNone then m.model_type else model_type_arg
    if model_type == some "vosk_small" then voskLayoutOk fs model_path
    else if truthy model_type && py_startswith "sherpa" (model_type.getD "") then
      sherpaValidate m fs model_path (model_type.getD "")
    else false
/-- The validator as the spec describes it: the pass/fail decision dispatches
purely on the explicitly given kind, never on the path string. Stated from
the spec's words, to be compared with `validate_model_files`. -/
def kind_template_check (m : Manager) (fs : FileSystem) (model_path : String)
    (kind : String) : Bool :=
  if !fs.pathExists model_path then false
  else if kind == "vosk_small" then voskLayoutOk fs model_path
  else if !kind.isEmpty && py_startswith "sherpa" kind then
    sherpaValidate m fs model_path kind
  else false
/-! ## `get_current_engine_type` -/

/-- The Vosk attribute fix of lines 999-1001 and 1050-1052: if the engine has
an `engine_type` attribute different from `"vosk_small"`, overwrite it. -/
def fixVoskEngine (e : Engine) : Engine :=
  if e.engine_type.isSome && e.engine_type != some "vosk_small" then
    {e with engine_type := some "vosk_small"}
  else e
/-- The `is_match` computation of lines 1012-1032: whether the current engine
is consistent with an explicitly set `model_type`. -/
def engineMatchesModelType (mt : String) (e : Engine) : Bool :=
  if e.cls == EngineClass.sherpaOnnxASR then
    if py_in "0626" mt then
      if py_in "0626" e.model_dir || py_in "2023-06-26" e.model_dir then
        if py_in "int8" mt && e.is_int8 then true
        else if !(py_in "int8" mt) && !e.is_int8 then true
        else false
      else false
    else
      if py_in "int8" mt && e.is_int8 then true
      else if py_in "std" mt && !e.is_int8 then true
      else false
  else false
/-- The inference of lines 1040-1119: derive an engine type from the engine
object alone (class, `engine_type` attribute, `model_config`, `model_dir`,
`is_int8`), possibly fixing a Vosk engine's attribute. -/
def inferEngineType (e : Engine) : Option String × Engine :=
  if e.cls == EngineClass.voskASR then
    (some "vosk_small", fixVoskEngine e)
  else if truthy e.engine_type then
    (e.engine_type, e)
  else if e.cls == EngineClass.sherpaOnnxASR then
    match e.model_config with
    | some mc =>
      if mc.name == some "0626" then
        (if mc.ctype == some "int8" then some "sherpa_0626_int8"
         else some "sherpa_0626_std", e)
      else
        (if mc.ctype == some "int8" then some "sherpa_onnx_int8"
         else some "sherpa_onnx_std", e)
    | none =>
      if py_in "0626" e.model_dir || py_in "2023-06-26" e.model_dir then
        (if e.is_int8 then some "sherpa_0626_int8" else some "sherpa_0626_std", e)
      else
        (if e.is_int8 then some "sherpa_onnx_int8" else some "sherpa_onnx_std", e)
  else (none, e)
/-- Lines 1121-1145: reconcile the inferred `engine_type` with `model_type`.
On a truthy mismatch the *declared* `model_type` is returned unchanged; when
`model_type` is falsy the inferred type is persisted into it. -/
def finalizeEngineType (m : Manager) (et : Option String) : Option String × Manager :=
  if truthy m.model_type && truthy et && m.model_type != et then
    (m.model_type, m)
  else if !truthy m.model_type && truthy et then
    (et, {m with model_type := et})
  else if truthy et then (et, m)
  else if truthy m.model_type then (m.model_type, m)
  else (none, m)
/-- `ASRModelManager.get_current_engine_type` (model_manager.py lines
973-1145). Returns the reported engine type together with the possibly
mutated manager (the function writes `model_type` and the engine's
`engine_type` attribute in several branches). -/
def get_current_engine_type (m : Manager) : Option String × Manager :=
  match m.current_engine with
  | some e =>
    if e.cls == EngineClass.voskASR then
      let e1 := fixVoskEngine e
      let mt1 := if m.model_type != some "vosk_small" then some "vosk_small"
                 else m.model_type
      (some "vosk_small", {m with current_engine := some e1, model_type := mt1})
    else if truthy m.model_type && engineMatchesModelType (m.model_type.getD "") e then
      (m.model_type, m)
    else
      let r := inferEngineType e
      finalizeEngineType {m with current_engine := some r.2} r.1
  | none => finalizeEngineType m none
/-! ## `initialize_engine`, `load_model`, `transcribe_file` -/

/-- The external world of the manager: the filesystem, the outcomes of the
engine constructors (`none` models a raised exception), of `setup()`, of an
engine's `transcribe_file` (`none` = raised, `some r` = returned `r`), and of
routing a non-WAV file through a fresh `FileTranscriber` (the collected
result, `none` when nothing was collected). -/
structure Env where
  fs : FileSystem
  voskConstructor : String → Option Engine
  sherpaConstructor : String → SherpaModelConfig → Option Engine
  sherpaSetupOk : Engine → Bool
  engineTranscribeFile : Engine → String → Option (Option String)
  fileTranscriberResult : String → Option String
/-- Lines 713-747 of `initialize_engine`: after a successful construction,
re-read the engine type and reconcile it with the requested one, forcing
`vosk_small` or the user's `model_type` where the source does. -/
def initFinish (m : Manager) (engine_type : String) : Bool × Manager × List Event :=
  let r := get_current_engine_type m
  let cet := r.1
  let m1 := r.2
  let m2 :=
    if cet != some engine_type then
      if engine_type == "vosk_small" then
        let m3 :=
          match m1.current_engine with
          | some e =>
            if e.engine_type.isSome then
              {m1 with current_engine := some {e with engine_type := some "vosk_small"}}
            else m1
          | none => m1
        {m3 with model_type := some "vosk_small"}
      else if truthy m1.model_type && m1.model_type == some engine_type then
        match m1.current_engine with
        | some e =>
          if e.engine_type.isSome then
            {m1 with current_engine := some {e with engine_type := m1.model_type}}
          else m1
        | none => m1
      else {m1 with model_type := cet}
    else m1
  (true, m2, [Event.model_loaded true])
/-- `ASRModelManager.initialize_engine` (model_manager.py lines 560-764).
Note: `self.current_engine` is assigned as soon as the constructor returns,
*before* the Vosk `model`/`recognizer` check and before the Sherpa `setup()`
call, so a failure of those checks leaves the new, half-constructed engine in
place. -/
def initialize_engine (env : Env) (m : Manager) (engine_type_arg : String) :
    Bool × Manager × List Event :=
  let engine_type :=
    if truthy m.model_type && m.model_type != some engine_type_arg then
      m.model_type.getD ""
    else engine_type_arg
  match lookupCfg m.models_config engine_type with
  | none => (false, m, [])
  | some model_config =>
    if !model_config.enabled then (false, m, [])
    else if engine_type == "vosk" || engine_type == "vosk_small" then
      if !env.fs.pathExists model_config.path then (false, m, [])
      else if !_validate_model_path m env.fs model_config.path (some engine_type) then
        (false, m, [])
      else
        match env.voskConstructor model_config.path with
        | none => (false, m, [])
        | some e0 =>
          let m1 := {m with current_engine := some e0}
          if !(e0.model_ok && e0.recognizer_ok) then (false, m1, [])
          else
            initFinish {m1 with current_engine := some {e0 with engine_type := some "vosk_small"}}
              engine_type
    else if py_startswith "sherpa" engine_type then
      if !env.fs.pathExists model_config.path then (false, m, [])
      else if !_validate_model_path m env.fs model_config.path (some engine_type) then
        (false, m, [])
      else
        let sc : SherpaModelConfig :=
          if engine_type == "sherpa_0626_int8" then ⟨some "0626", some "int8"⟩
          else if engine_type == "sherpa_0626_std" || engine_type == "sherpa_0626" then
            ⟨some "0626", some "standard"⟩
          else if engine_type == "sherpa_int8" then ⟨some "", some "int8"⟩
          else ⟨some "", some "standard"⟩
        match env.sherpaConstructor model_config.path sc with
        | none => (false, m, [])
        | some e0 =>
          let m1 := {m with current_engine := some e0}
          if !env.sherpaSetupOk e0 then (false, m1, [])
          else initFinish m1 engine_type
    else (false, m, [])
/-- `ASRModelManager.load_model` (model_manager.py lines 185-262). -/
def load_model (env : Env) (m : Manager) (model_name : String) :
    Bool × Manager × List Event :=
  match lookupCfg m.models_config model_name with
  | none => (false, m, [])
  | some model_config =>
    if model_config.path == "" then (false, m, [])
    else if !env.fs.pathExists model_config.path then (false, m, [])
    else if !validate_model_files m env.fs model_config.path (some model_name) then
      (false, m, [])
    else
      let mt := if model_name == "vosk_small" then "vosk_small" else model_name
      let m1 := {m with current_model_type := some model_name, model_type := some mt}
      let r := initialize_engine env m1 model_name
      if !r.1 then (false, r.2.1, r.2.2)
      else
        (true, {r.2.1 with current_model := true},
         r.2.2 ++ [Event.model_loaded true, Event.status_updated])
/-- `ASRModelManager.transcribe_file` (model_manager.py lines 785-955).
The attribute probe on a `None` engine (`hasattr` on line 860 and the calls
below it) cannot occur: the `None` case returns `none` like the enclosing
`try/except` would. -/
def transcribe_file (env : Env) (m : Manager) (file_path : String) :
    Option String × Manager :=
  let m1 :=
    if m.current_engine.isNone then
      if truthy m.model_type then (initialize_engine env m (m.model_type.getD "")).2.1
      else (initialize_engine env m "vosk_small").2.1
    else m
  if m1.current_engine.isNone then (none, m1)
  else
    let r := get_current_engine_type m1
    let engine_type := r.1
    let m2 := r.2
    let step : (Option String × Manager) ⊕ (Option String × Manager) :=
      if truthy m2.model_type && truthy engine_type && m2.model_type != engine_type then
        let r2 := initialize_engine env m2 (m2.model_type.getD "")
        if !r2.1 then Sum.inl (none, r2.2.1)
        else
          let r3 := get_current_engine_type r2.2.1
          if r3.1 != r3.2.model_type then Sum.inl (none, r3.2)
          else Sum.inr (r3.1, r3.2)
      else Sum.inr (engine_type, m2)
    match step with
    | Sum.inl out => out
    | Sum.inr (et, mf) =>
      match mf.current_engine with
      | none => (none, mf)
      | some e =>
        if !e.has_transcribe_file then (none, mf)
        else if !env.fs.pathExists file_path then (none, mf)
        else if et == some "vosk_small" then
          if !py_endswith ".wav" (py_lower file_path) then
            (env.fileTranscriberResult file_path, mf)
          else
            match env.engineTranscribeFile e file_path with
            | none => (none, mf)
            | some out => (out, mf)
        else
          match env.engineTranscribeFile e file_path with
          | none => (none, mf)
          | some out => (out, mf)
/-! ## Live recognition controls -/

/-- `ASRModelManager.start_recognition` (model_manager.py lines 1273-1313). -/
def start_recognition (m : Manager) : Bool × Manager × List Event :=
  if m.current_engine.isNone then (false, m, [Event.error_occurred])
  else if !m.current_device then (false, m, [Event.error_occurred])
  else if m.is_recognizing then (true, m, [])
  else (true, {m with is_recognizing := true},
        [Event.recognition_started, Event.status_updated])
/-- `ASRModelManager.stop_recognition` (model_manager.py lines 1315-1343):
when no recognition is running it returns `True` after only a log line;
otherwise it clears the flag and emits `recognition_stopped` once. -/
def stop_recognition (m : Manager) : Bool × Manager × List Event :=
  if !m.is_recognizing then (true, m, [])
  else (true, {m with is_recognizing := false},
        [Event.recognition_stopped, Event.status_updated])
/-! ## `FileTranscriber.stop_transcription` -/

/-- `FileTranscriber` state relevant to `stop_transcription`. -/
structure Transcriber where
  is_transcribing : Bool := false
  has_ffmpeg_process : Bool := false
  has_thread : Bool := false
  temp_files : List String := []
deriving DecidableEq
/-- The externally visible actions of `stop_transcription`. -/
inductive TranscriberAction
  | terminate_ffmpeg
  | join_worker
  | cleanup_temp_files
  | emit_finished
deriving DecidableEq
/-- `FileTranscriber.stop_transcription` (file_transcriber.py lines 145-227).
When `is_transcribing` is false it returns `False` at line 170 without
touching the process, the thread or the temporary files. -/
def stop_transcription (t : Transcriber) : Bool × Transcriber × List TranscriberAction :=
  if !t.is_transcribing then (false, t, [])
  else
    (true,
     { is_transcribing := false, has_ffmpeg_process := false,
       has_thread := false, temp_files := [] },
     (if t.has_ffmpeg_process then [TranscriberAction.terminate_ffmpeg] else []) ++
       (if t.has_thread then [TranscriberAction.join_worker] else []) ++
       [TranscriberAction.cleanup_temp_files, TranscriberAction.emit_finished])
/-! ## Progress emission (`progress_updated`)

The values passed to `self.signals.progress_updated.emit` along one job, in
emission order. Durations and byte counts are exact rationals; `int()` on the
nonnegative values produced here is the floor. A `tick` flag stands for the
`current_time - last_update_time >= 0.2` throttle test of one loop step. -/

/-- `progress = 20 + min(30, int((current_position / duration) * 30))` with
`current_position = total_bytes / (16000 * 2)` (file_transcriber.py lines
456-457). -/
def readProgress (duration : Rat) (total_bytes : Nat) : Nat :=
  20 + min 30 ((((total_bytes : Rat) / (16000 * 2) / duration) * 30).floor.toNat)
/-- The reading loop (lines 445-464): each step reads a chunk of `bytes`
bytes and emits when its throttle `tick` fires. -/
def readEmits (duration : Rat) : Nat → List (Nat × Bool) → List Nat
  | _, [] => []
  | acc, (bytes, tick) :: rest =>
    (if tick then [readProgress duration (acc + bytes)] else []) ++
      readEmits duration (acc + bytes) rest
/-- `progress = 50 + min(49, int((i / total_chunks) * 49))`
(file_transcriber.py line 516). -/
def procProgress (total_chunks i : Nat) : Nat :=
  50 + min 49 ((((i : Rat) / (total_chunks : Rat)) * 49).floor.toNat)
/-- The processing loop (lines 489-519), emitting on its throttle ticks. -/
def procEmits (total_chunks : Nat) : Nat → List Bool → List Nat
  | _, [] => []
  | i, tick :: rest =>
    (if tick then [procProgress total_chunks i] else []) ++
      procEmits total_chunks (i + 1) rest
/-- The progress values of `_transcribe_file_with_vosk` plus the `5` and `20`
emitted by `_convert_to_wav` (lines 578 and 607): `chunks` are the
(byte count, throttle tick) pairs of the chunks actually read before
completion or cancellation, `proc_ticks` the throttle ticks of the processed
chunks, `completed` whether the job ran to its final `100` emission. -/
def _transcribe_file_with_vosk_progress (duration : Rat) (chunks : List (Nat × Bool))
    (proc_ticks : List Bool) (convert_ok completed : Bool) : List Nat :=
  if !convert_ok then [5]
  else
    [5, 20] ++ readEmits duration 0 chunks ++
      procEmits chunks.length 0 proc_ticks ++
      (if completed then [100] else [])
/-- The progress values of `_transcribe_file_with_manager`
(file_transcriber.py lines 342, 347, 359, 378): fixed milestones. -/
def _transcribe_file_with_manager_progress : List Nat := [10, 20, 90, 100]
/-! ## Concrete fixtures for counterexamples and witnesses -/

/-- A filesystem holding exactly a valid Vosk model layout at `m/vosk`. -/
def fsVosk : FileSystem :=
  { pathExists := fun p => ["m/vosk", "m/vosk/am", "m/vosk/am/final.mdl"].contains p,
    isDir := fun p => ["m/vosk", "m/vosk/am"].contains p }
/-- A working Sherpa adapter (capable of file transcription). -/
def goodSherpaEngine : Engine :=
  { cls := EngineClass.sherpaOnnxASR, is_int8 := true,
    model_config := some { name := some "", ctype := some "int8" },
    has_transcribe_file := true }
/-- A Vosk adapter whose constructor returned but whose `model` and
`recognizer` are empty: the half-constructed engine of the C1 scenario. -/
def brokenVoskEngine : Engine :=
  { cls := EngineClass.voskASR, model_ok := false, recognizer_ok := false }
/-- Environment in which `VoskASR(path)` constructs `brokenVoskEngine`. -/
def envLoad : Env :=
  { fs := fsVosk,
    voskConstructor := fun _ => some brokenVoskEngine,
    sherpaConstructor := fun _ _ => none,
    sherpaSetupOk := fun _ => false,
    engineTranscribeFile := fun _ _ => some none,
    fileTranscriberResult := fun _ => none }
/-- A manager holding a working Sherpa adapter, about to load `vosk_small`. -/
def mgrLoad : Manager :=
  { models_config := [("vosk_small", { path := "m/vosk", enabled := true })],
    model_type := some "sherpa_onnx_int8",
    current_engine := some goodSherpaEngine }
/-- Declared identity `sherpa_onnx_int8` with an injected Vosk adapter. -/
def mgrVoskMismatch : Manager :=
  { models_config := [], model_type := some "sherpa_onnx_int8",
    current_engine := some { cls := EngineClass.voskASR } }
/-- No adapter loaded, but a declared `model_type`. -/
def mgrNoEngine : Manager := { models_config := [], model_type := some "vosk_small" }
/-- The Sherpa int8 files, placed under a directory whose name contains
`vosk`. -/
def sherpaFilesUnder (base : String) : List String :=
  (sherpa_required_files true false).map (path_join base)
/-- Filesystem for the C3 scenario: a complete Sherpa int8 model below
`models/voskdir`, and no Vosk layout anywhere. -/
def fsC3 : FileSystem :=
  { pathExists := fun p => ("models/voskdir" :: sherpaFilesUnder "models/voskdir").contains p,
    isDir := fun p => p == "models/voskdir" }
/-- Configuration declaring `sherpa_onnx_int8` at `models/voskdir`. -/
def mgrC3 : Manager :=
  { models_config :=
      [("sherpa_onnx_int8", { path := "models/voskdir", enabled := true, ctype := some "int8" })] }
/-- A transcriber with no active job but a leftover temporary file. -/
def stoppedTranscriber : Transcriber := { temp_files := ["tmp1.wav"] }
/-- A transcriber in the middle of a job, decoder process running. -/
def activeTranscriber : Transcriber :=
  { is_transcribing := true, has_ffmpeg_process := true, has_thread := true,
    temp_files := ["tmp1.wav"] }
/-- A manager in the middle of live recognition. -/
def mgrRecognizing : Manager := { models_config := [], is_recognizing := true }
/-- A loaded adapter without the `transcribe_file` capability. -/
def mgrNoCap : Manager :=
  { models_config := [], model_type := some "vosk_small",
    current_engine := some { cls := EngineClass.voskASR } }
/-! ### Helper lemmas about characters and the shaping stages -/

theorem char_ofNat_toNat_valid (n : Nat) (h : n < 0xd800) :
    (Char.ofNat n).toNat = n := by
  have hv : Nat.isValidChar n := Or.inl h
  simp only [Char.ofNat, hv, dif_pos, Char.ofNatAux]
  rfl
theorem char_toUpper_expand (d : Char) :
    d.toUpper = if d.toNat ≥ 97 ∧ d.toNat ≤ 122 then Char.ofNat (d.toNat - 32) else d :=
  rfl
theorem char_toUpper_idem (c : Char) : c.toUpper.toUpper = c.toUpper := by
  by_cases h : c.toNat ≥ 97 ∧ c.toNat ≤ 122
  · have ht : (Char.ofNat (c.toNat - 32)).toNat = c.toNat - 32 :=
      char_ofNat_toNat_valid _ (by omega)
    rw [char_toUpper_expand c, if_pos h, char_toUpper_expand, ht, if_neg (by omega)]
  · rw [char_toUpper_expand c, if_neg h, char_toUpper_expand c, if_neg h]
theorem capitalized_cons (c : Char) (cs : List Char) :
    capitalized (c :: cs) = c.toUpper :: cs := rfl
/-- A list whose head is already uppercase is fixed by `capitalized`. -/
theorem capitalized_of_head_upper {l : List Char} {c : Char}
    (h : l.head? = some c.toUpper) : capitalized l = l := by
  cases l with
  | nil => rfl
  | cons d ds =>
    simp only [List.head?_cons, Option.some.injEq] at h
    simp [capitalized, h, char_toUpper_idem]
theorem with_terminal_ne_nil {l : List Char} (h : l ≠ []) : with_terminal l ≠ [] := by
  unfold with_terminal
  split <;> simp [h]
/-- After `with_terminal`, the last character is terminal punctuation. -/
theorem with_terminal_getLast_mem (l : List Char) :
    (with_terminal l).getLastD ' ' ∈ terminal_punct := by
  unfold with_terminal
  split
  · assumption
  · have hl : (l ++ ['.']).getLastD ' ' = '.' := by
      rw [List.getLastD_eq_getLast?, List.getLast?_append]
      rfl
    rw [hl]
    decide
theorem with_terminal_head? (l : List Char) (h : l ≠ []) :
    (with_terminal l).head? = l.head? := by
  unfold with_terminal
  split
  · rfl
  · cases l with
    | nil => exact absurd rfl h
    | cons c cs => simp
theorem formatChars_cons (c : Char) (cs : List Char) :
    formatChars (c :: cs) = questionify (with_terminal (capitalized (c :: cs))) := rfl
theorem len_takeWhile (p : Char → Bool) (l : List Char) :
    (l.takeWhile p).length ≤ l.length := by
  induction l with
  | nil => simp
  | cons c cs ih => cases hp : p c <;> simp [List.takeWhile_cons, hp] <;> omega
theorem len_dropWhile (p : Char → Bool) (l : List Char) :
    (l.dropWhile p).length ≤ l.length := by
  induction l with
  | nil => simp
  | cons c cs ih => cases hp : p c <;> simp [List.dropWhile_cons, hp] <;> omega
theorem first_word_length_le (l : List Char) : (first_word l).length ≤ l.length :=
  le_trans (len_takeWhile _ _) (len_dropWhile _ _)
theorem question_starters_two_le : ∀ w ∈ question_starters, 2 ≤ w.length := by decide
/-- A list recognized by `is_question` has at least two characters. -/
theorem is_question_two_le {l : List Char} (h : is_question l = true) : 2 ≤ l.length := by
  unfold is_question at h
  rw [decide_eq_true_iff] at h
  have h2 := question_starters_two_le _ h.2
  rw [List.length_map] at h2
  exact le_trans h2 (first_word_length_le l)
theorem getLastD_concat (l : List Char) (c d : Char) : (l ++ [c]).getLastD d = c := by
  rw [List.getLastD_eq_getLast?, List.getLast?_append]
  rfl
theorem questionify_of_last_ne {l : List Char} (h : l.getLastD ' ' ≠ '.') :
    questionify l = l := by
  unfold questionify
  rw [if_neg h]
  split
  · rfl
  · rfl
/-- A nonempty list whose head is uppercase, whose last character is terminal
punctuation and which `questionify` fixes, is a fixed point of `formatChars`. -/
theorem formatChars_fixed {l : List Char} {c : Char}
    (hhead : l.head? = some c.toUpper)
    (hlast : l.getLastD ' ' ∈ terminal_punct)
    (hq : questionify l = l) : formatChars l = l := by
  cases l with
  | nil => simp at hhead
  | cons d ds =>
    rw [formatChars_cons, capitalized_of_head_upper hhead]
    unfold with_terminal
    rw [if_pos hlast, hq]
theorem mem_terminal_punct_toNat_lt {c : Char} (h : c ∈ terminal_punct) :
    c.toNat < 65 := by
  fin_cases h <;> decide
/-- Capitalizing a character does not change whether it is terminal
punctuation. -/
theorem toUpper_mem_terminal_punct (c : Char) :
    c.toUpper ∈ terminal_punct ↔ c ∈ terminal_punct := by
  by_cases hl : c.toNat ≥ 97 ∧ c.toNat ≤ 122
  · have ht : (Char.ofNat (c.toNat - 32)).toNat = c.toNat - 32 :=
      char_ofNat_toNat_valid _ (by omega)
    constructor
    · intro h
      rw [char_toUpper_expand, if_pos hl] at h
      have := mem_terminal_punct_toNat_lt h
      omega
    · intro h
      have := mem_terminal_punct_toNat_lt h
      omega
  · rw [char_toUpper_expand, if_neg hl]
theorem getLastD_capitalized_mem (c : Char) (cs : List Char) :
    ((capitalized (c :: cs)).getLastD ' ' ∈ terminal_punct) ↔
      ((c :: cs).getLastD ' ' ∈ terminal_punct) := by
  cases cs with
  | nil => simpa [capitalized] using toUpper_mem_terminal_punct c
  | cons d ds => simp [capitalized, List.getLastD_cons]
/-! ### C10: idempotence of the text shaping -/

theorem formatChars_ne_nil {c : Char} {cs : List Char} : formatChars (c :: cs) ≠ [] := by
  rw [formatChars_cons]
  unfold questionify
  have hne : with_terminal (capitalized (c :: cs)) ≠ [] :=
    with_terminal_ne_nil (by simp [capitalized])
  split
  · split
    · simp
    · exact hne
  · exact hne
/-- Applying `formatChars` to the output of the question rewrite of a list with
uppercase head and terminal-punctuation last character changes nothing. -/
theorem formatChars_questionify_fixed {t2 : List Char} {c : Char}
    (hne : t2 ≠ []) (hhead : t2.head? = some c.toUpper)
    (hlast : t2.getLastD ' ' ∈ terminal_punct) :
    formatChars (questionify t2) = questionify t2 := by
  by_cases hq : is_question t2 = true
  · by_cases hdot : t2.getLastD ' ' = '.'
    · have hrw : questionify t2 = t2.dropLast ++ ['?'] := by
        unfold questionify
        rw [if_pos hq, if_pos hdot]
      rw [hrw]
      have hlen : 2 ≤ t2.length := is_question_two_le hq
      obtain ⟨a, t3, rfl⟩ : ∃ a t3, t2 = a :: t3 := by
        cases t2 with
        | nil => exact absurd rfl hne
        | cons a t3 => exact ⟨a, t3, rfl⟩
      have ht3 : t3 ≠ [] := by
        intro h
        rw [h] at hlen
        simp at hlen
      rw [List.dropLast_cons_of_ne_nil ht3]
      have ha : a = c.toUpper := by simpa using hhead
      apply formatChars_fixed (c := c)
      · simp [ha]
      · rw [getLastD_concat]
        decide
      · apply questionify_of_last_ne
        rw [getLastD_concat]
        decide
    · have hrw : questionify t2 = t2 := by
        unfold questionify
        rw [if_pos hq, if_neg hdot]
      rw [hrw]
      exact formatChars_fixed hhead hlast hrw
  · have hrw : questionify t2 = t2 := by
      unfold questionify
      rw [if_neg (by simpa using hq)]
    rw [hrw]
    exact formatChars_fixed hhead hlast hrw
theorem formatChars_idem (l : List Char) : formatChars (formatChars l) = formatChars l := by
  cases l with
  | nil => rfl
  | cons c cs =>
    rw [formatChars_cons]
    refine formatChars_questionify_fixed (c := c)
      (with_terminal_ne_nil (by simp [capitalized])) ?hd (with_terminal_getLast_mem _)
    rw [with_terminal_head? _ (by simp [capitalized]), capitalized_cons]
    rfl
theorem capitalized_length (l : List Char) : (capitalized l).length = l.length := by
  cases l <;> rfl
theorem with_terminal_length (l : List Char) :
    (with_terminal l).length =
      l.length + (if l.getLastD ' ' ∈ terminal_punct then 0 else 1) := by
  unfold with_terminal
  split
  · simp
  · simp
theorem questionify_length {l : List Char} (hne : l ≠ []) :
    (questionify l).length = l.length := by
  have h1 : 1 ≤ l.length := List.length_pos.mpr hne
  unfold questionify
  split
  · split
    · rw [List.length_append, List.length_dropLast]
      simp
      omega
    · rfl
  · rfl
theorem getLastD_capitalized_bang {c : Char} {cs : List Char}
    (h : (c :: cs).getLastD ' ' = '!') :
    (capitalized (c :: cs)).getLastD ' ' = '!' := by
  cases cs with
  | nil =>
    have hc : c = '!' := h
    subst hc
    decide
  | cons d ds => simpa [capitalized, List.getLastD_cons] using h
/-- C7: text shaping. The two concrete examples of the spec; an input already
ending in `!` is returned with only its first character capitalized; a period
is appended exactly when the last character is none of `. ? ! , ; : -`
(stated through the length of the result); and, when the shaped text ends in
a period, that period is replaced by `?` exactly when the first word of the
shaped text is one of the fixed interrogative/auxiliary lead words. -/
theorem C7_format_text :
    _format_text "what is this" = "What is this?" ∧
    _format_text "hello world" = "Hello world." ∧
    (∀ s : String, s.data.getLastD ' ' = '!' →
      _format_text s = String.mk (capitalized s.data)) ∧
    (∀ s : String, s.data ≠ [] →
      (_format_text s).length =
        s.length + (if s.data.getLastD ' ' ∈ terminal_punct then 0 else 1)) ∧
    (∀ s : String, s.data ≠ [] →
      (with_terminal (capitalized s.data)).getLastD ' ' = '.' →
      (_format_text s = String.mk ((with_terminal (capitalized s.data)).dropLast ++ ['?'])
        ↔ is_question (with_terminal (capitalized s.data)) = true)) := by
  refine ⟨by decide, by decide, ?bang, ?len, ?quest⟩
  · intro s h
    obtain ⟨l⟩ := s
    cases l with
    | nil => simp at h
    | cons c cs =>
      show String.mk (formatChars (c :: cs)) = _
      rw [formatChars_cons]
      have hcap : (capitalized (c :: cs)).getLastD ' ' = '!' := getLastD_capitalized_bang h
      have hterm : with_terminal (capitalized (c :: cs)) = capitalized (c :: cs) := by
        unfold with_terminal
        rw [if_pos (by rw [hcap]; decide)]
      rw [hterm, questionify_of_last_ne (by rw [hcap]; decide)]
  · intro s hne
    obtain ⟨l⟩ := s
    cases l with
    | nil => exact absurd rfl hne
    | cons c cs =>
      show (formatChars (c :: cs)).length = (c :: cs).length + _
      rw [formatChars_cons,
        questionify_length (with_terminal_ne_nil (by simp [capitalized])),
        with_terminal_length, capitalized_length]
      congr 1
      by_cases hm : (c :: cs).getLastD ' ' ∈ terminal_punct
      · rw [if_pos ((getLastD_capitalized_mem c cs).mpr hm), if_pos hm]
      · rw [if_neg (fun hx => hm ((getLastD_capitalized_mem c cs).mp hx)), if_neg hm]
  · intro s hne hdot
    obtain ⟨l⟩ := s
    cases l with
    | nil => exact absurd rfl hne
    | cons c cs =>
      constructor
      · intro heq
        by_contra hq
        have hfix : formatChars (c :: cs) = with_terminal (capitalized (c :: cs)) := by
          rw [formatChars_cons]
          unfold questionify
          rw [if_neg (by simpa using hq)]
        have hdata := congrArg String.data heq
        rw [show (_format_text (String.mk (c :: cs))).data
              = formatChars (c :: cs) from rfl, hfix] at hdata
        have hlast := congrArg (fun t => List.getLastD t ' ') hdata
        simp only at hlast
        rw [getLastD_concat, hdot] at hlast
        exact absurd hlast (by decide)
      · intro hq
        show String.mk (formatChars (c :: cs)) = _
        rw [formatChars_cons]
        unfold questionify
        rw [if_pos hq, if_pos hdot]
/-- Witness for C7 at concrete inputs. -/
theorem C7_format_text_witness :
    (("go on!" : String).data.getLastD ' ' = '!' ∧
      _format_text "go on!" = String.mk (capitalized ("go on!" : String).data)) ∧
    (("hello world" : String).data ≠ [] ∧
      (_format_text "hello world").length =
        ("hello world" : String).length +
          (if ("hello world" : String).data.getLastD ' ' ∈ terminal_punct then 0 else 1)) :=
  ⟨⟨by decide, C7_format_text.2.2.1 "go on!" (by decide)⟩,
   ⟨by decide, C7_format_text.2.2.2.1 "hello world" (by decide)⟩⟩
/-- C10: `_format_text` is idempotent, and the empty string is returned
unchanged. -/
theorem C10_format_text_idem :
    (∀ s : String, _format_text (_format_text s) = _format_text s) ∧
    _format_text "" = "" := by
  refine ⟨fun s => ?idem, rfl⟩
  show String.mk (formatChars (String.mk (formatChars s.data)).data) = _
  rw [show (String.mk (formatChars s.data)).data = formatChars s.data from rfl,
    formatChars_idem]
  rfl
/-! ## C3: the validator and the explicitly given kind -/

/-- C3 counterexample: with the kind explicitly given as `sherpa_onnx_int8`
and all Sherpa template files present, the validator still fails because the
path contains `vosk` and the Vosk template is applied instead. -/
theorem C3_validate_counterexample :
    validate_model_files mgrC3 fsC3 "models/voskdir" (some "sherpa_onnx_int8") = false ∧
    kind_template_check mgrC3 fsC3 "models/voskdir" "sherpa_onnx_int8" = true := by
  decide
/-- C3 amended: when a kind is explicitly given, `validate_model_files`
agrees with the pure kind-template dispatch exactly on paths whose lowercase
form does not contain `vosk`; on a path containing `vosk`, the Vosk template
is applied regardless of the given kind. -/
theorem C3_validate_dispatch (m : Manager) (fs : FileSystem) (model_path kind : String) :
    (py_in "vosk" (py_lower model_path) = false →
      validate_model_files m fs model_path (some kind) =
        kind_template_check m fs model_path kind) ∧
    (py_in "vosk" (py_lower model_path) = true → fs.pathExists model_path = true →
      validate_model_files m fs model_path (some kind) = voskLayoutOk fs model_path) := by
  constructor
  · intro hv
    unfold validate_model_files kind_template_check
    simp only [Option.isNone_some, Bool.false_eq_true, if_false, hv, Bool.or_false,
      truthy, Option.getD_some]
    rfl
  · intro hv hp
    unfold validate_model_files
    simp [hv, hp]
/-- C3 witness: at a path free of `vosk`, the two dispatches agree. -/
theorem C3_validate_dispatch_witness :
    py_in "vosk" (py_lower "models/plain") = false ∧
    validate_model_files mgrC3 fsC3 "models/plain" (some "sherpa_onnx_int8") =
      kind_template_check mgrC3 fsC3 "models/plain" "sherpa_onnx_int8" :=
  ⟨by decide, (C3_validate_dispatch mgrC3 fsC3 "models/plain" "sherpa_onnx_int8").1 (by decide)⟩
/-! ## C5: `get_current_engine_type` with no adapter loaded -/

/-- C5 counterexample: with no adapter loaded but `model_type` set, the
function returns the set `model_type`, not `none`. -/
theorem C5_counterexample :
    mgrNoEngine.current_engine = none ∧
    (get_current_engine_type mgrNoEngine).1 = some "vosk_small" := by
  decide
/-- C5 amended: with no adapter loaded, `get_current_engine_type` leaves the
state unchanged and returns `none` exactly when `model_type` is unset or
empty; otherwise it returns the declared `model_type`. -/
theorem C5_no_engine (m : Manager) (h : m.current_engine = none) :
    (get_current_engine_type m).1 =
      (if truthy m.model_type then m.model_type else none) ∧
    (get_current_engine_type m).2 = m := by
  unfold get_current_engine_type
  rw [h]
  by_cases hmt : truthy m.model_type
  · simp [finalizeEngineType, hmt, show truthy (none : Option String) = false from rfl]
  · simp [finalizeEngineType, hmt, show truthy (none : Option String) = false from rfl]
/-- C5 witness. -/
theorem C5_no_engine_witness :
    (get_current_engine_type mgrNoEngine).1 =
      (if truthy mgrNoEngine.model_type then mgrNoEngine.model_type else none) ∧
    (get_current_engine_type mgrNoEngine).2 = mgrNoEngine :=
  C5_no_engine mgrNoEngine rfl
/-! ## C6: `stop_transcription` -/

/-- C6 counterexample: with no job active, `stop_transcription` returns
`False` (not success) and performs no cleanup: the leftover temporary file
stays. -/
theorem C6_stop_counterexample :
    (stop_transcription stoppedTranscriber).1 = false ∧
    (stop_transcription stoppedTranscriber).2.1.temp_files = ["tmp1.wav"] ∧
    (stop_transcription stoppedTranscriber).2.2 = [] := by
  decide
/-- C6 amended: `stop_transcription` succeeds and runs cleanup (temporary
files removed, decoder process terminated when present, worker joined when
present) exactly when a transcription is active; when none is active it
returns `False` and does nothing. -/
theorem C6_stop_transcription (t : Transcriber) :
    (t.is_transcribing = true →
      (stop_transcription t).1 = true ∧
      (stop_transcription t).2.1.temp_files = [] ∧
      (stop_transcription t).2.1.is_transcribing = false ∧
      (stop_transcription t).2.1.has_ffmpeg_process = false ∧
      TranscriberAction.cleanup_temp_files ∈ (stop_transcription t).2.2) ∧
    (t.is_transcribing = false →
      (stop_transcription t).1 = false ∧ (stop_transcription t).2.1 = t ∧
      (stop_transcription t).2.2 = []) := by
  constructor
  · intro h
    simp [stop_transcription, h]
  · intro h
    simp [stop_transcription, h]
/-- C6 witness: stopping an active job cleans up; stopping an idle
transcriber is the refused no-op. -/
theorem C6_stop_transcription_witness :
    ((stop_transcription activeTranscriber).1 = true ∧
      (stop_transcription activeTranscriber).2.1.temp_files = [] ∧
      (stop_transcription activeTranscriber).2.1.is_transcribing = false ∧
      (stop_transcription activeTranscriber).2.1.has_ffmpeg_process = false ∧
      TranscriberAction.cleanup_temp_files ∈ (stop_transcription activeTranscriber).2.2) ∧
    ((stop_transcription stoppedTranscriber).1 = false ∧
      (stop_transcription stoppedTranscriber).2.1 = stoppedTranscriber ∧
      (stop_transcription stoppedTranscriber).2.2 = []) :=
  ⟨(C6_stop_transcription activeTranscriber).1 rfl,
   (C6_stop_transcription stoppedTranscriber).2 rfl⟩
/-! ## C9: `stop_recognition` idempotence -/

/-- C9: stopping twice succeeds both times; `recognition_stopped` is emitted
exactly once when recognition was running and never when it was not; stopping
when not recognizing is a pure no-op success. -/
theorem C9_stop_recognition (m : Manager) :
    (stop_recognition m).1 = true ∧
    (stop_recognition (stop_recognition m).2.1).1 = true ∧
    (stop_recognition (stop_recognition m).2.1).2.2.count Event.recognition_stopped = 0 ∧
    ((stop_recognition m).2.2 ++ (stop_recognition (stop_recognition m).2.1).2.2).count
        Event.recognition_stopped = (if m.is_recognizing then 1 else 0) ∧
    (m.is_recognizing = false →
      (stop_recognition m).2.1 = m ∧ (stop_recognition m).2.2 = []) := by
  by_cases h : m.is_recognizing
  · simp [stop_recognition, h]
  · simp [stop_recognition, h]
/-- C9 witness at a recognizing manager. -/
theorem C9_stop_recognition_witness :
    (stop_recognition mgrRecognizing).1 = true ∧
    (stop_recognition (stop_recognition mgrRecognizing).2.1).1 = true ∧
    (stop_recognition (stop_recognition mgrRecognizing).2.1).2.2.count
        Event.recognition_stopped = 0 ∧
    ((stop_recognition mgrRecognizing).2.2 ++
        (stop_recognition (stop_recognition mgrRecognizing).2.1).2.2).count
        Event.recognition_stopped = (if mgrRecognizing.is_recognizing then 1 else 0) ∧
    (mgrRecognizing.is_recognizing = false →
      (stop_recognition mgrRecognizing).2.1 = mgrRecognizing ∧
      (stop_recognition mgrRecognizing).2.2 = []) :=
  C9_stop_recognition mgrRecognizing
/-! ## C2: declared identity vs inferred identity -/

theorem inferEngineType_snd_of_ne {e : Engine}
    (h : (e.cls == EngineClass.voskASR) = false) : (inferEngineType e).2 = e := by
  unfold inferEngineType
  rw [if_neg (by simp [h])]
  split
  · rfl
  · split
    · split
      · split <;> rfl
      · split <;> rfl
    · rfl
theorem finalizeEngineType_engine (m : Manager) (et : Option String) :
    (finalizeEngineType m et).2.current_engine = m.current_engine := by
  unfold finalizeEngineType
  split
  · rfl
  · split
    · rfl
    · split
      · rfl
      · split <;> rfl
/-- With a truthy `model_type`, the reconciliation always reports the
declared `model_type` and never overwrites it. -/
theorem finalizeEngineType_of_truthy (m : Manager) (et : Option String)
    (hmt : truthy m.model_type = true) :
    (finalizeEngineType m et).1 = m.model_type ∧
    (finalizeEngineType m et).2.model_type = m.model_type := by
  unfold finalizeEngineType
  by_cases h1 : (truthy m.model_type && truthy et && (m.model_type != et)) = true
  · rw [if_pos h1]
    exact ⟨rfl, rfl⟩
  · rw [if_neg h1]
    rw [if_neg (by simp [hmt])]
    by_cases h3 : truthy et = true
    · rw [if_pos h3]
      have hne : (m.model_type != et) = false := by
        cases hx : (m.model_type != et) with
        | false => rfl
        | true =>
          refine absurd ?xx h1
          rw [hmt, h3, hx]
          rfl
      have heq : m.model_type = et :=
        eq_of_beq (by simpa [bne] using hne)
      exact ⟨heq.symm, rfl⟩
    · rw [if_neg h3, if_pos hmt]
      exact ⟨rfl, rfl⟩
/-- C2 counterexample: with declared identity `sherpa_onnx_int8` and a Vosk
adapter injected, `get_current_engine_type` returns the inferred
`vosk_small` and overwrites the declared `model_type` with it. -/
theorem C2_counterexample :
    truthy mgrVoskMismatch.model_type = true ∧
    (get_current_engine_type mgrVoskMismatch).1 = some "vosk_small" ∧
    (get_current_engine_type mgrVoskMismatch).1 ≠ mgrVoskMismatch.model_type ∧
    (get_current_engine_type mgrVoskMismatch).2.model_type ≠ mgrVoskMismatch.model_type := by
  decide
/-- C2 amended: with a declared (truthy) `model_type` and any loaded adapter
that is not a `VoskASR` — in particular a Sherpa adapter whose inferred
family differs from the declared identity — `get_current_engine_type`
returns the declared identity, leaves `model_type` untouched and leaves the
adapter untouched. A loaded `VoskASR` adapter is the exception: there the
inferred `vosk_small` is returned and overwrites the declared identity. -/
theorem C2_declared_identity (m : Manager) (e : Engine)
    (he : m.current_engine = some e) (hcls : (e.cls == EngineClass.voskASR) = false)
    (hmt : truthy m.model_type = true) :
    (get_current_engine_type m).1 = m.model_type ∧
    (get_current_engine_type m).2.model_type = m.model_type ∧
    (get_current_engine_type m).2.current_engine = m.current_engine := by
  unfold get_current_engine_type
  rw [he]
  dsimp only
  rw [if_neg (by simp [hcls])]
  by_cases hm : (truthy m.model_type && engineMatchesModelType (m.model_type.getD "") e) = true
  · rw [if_pos hm]
    exact ⟨rfl, rfl, he⟩
  · rw [if_neg hm]
    rw [inferEngineType_snd_of_ne hcls]
    have hms : ({m with current_engine := some e} : Manager) = m := by
      rw [← he]
    rw [hms]
    exact ⟨(finalizeEngineType_of_truthy m _ hmt).1,
      (finalizeEngineType_of_truthy m _ hmt).2,
      (finalizeEngineType_engine m _).trans he⟩
/-- C2 witness: a manager with a Sherpa adapter and declared identity. -/
theorem C2_declared_identity_witness :
    (get_current_engine_type mgrLoad).1 = mgrLoad.model_type ∧
    (get_current_engine_type mgrLoad).2.model_type = mgrLoad.model_type ∧
    (get_current_engine_type mgrLoad).2.current_engine = mgrLoad.current_engine :=
  C2_declared_identity mgrLoad goodSherpaEngine rfl (by decide) (by decide)
/-! ## C1: atomicity of `load_model` -/

/-- C1 counterexample: loading `vosk_small` over a working Sherpa adapter,
with a Vosk constructor that returns an engine whose `model`/`recognizer`
are empty, fails — but the previously loaded adapter has been replaced by
the half-constructed Vosk engine (line 631 assigns `self.current_engine`
before the line 635 check). -/
theorem C1_load_model_counterexample :
    (load_model envLoad mgrLoad "vosk_small").1 = false ∧
    (load_model envLoad mgrLoad "vosk_small").2.1.current_engine = some brokenVoskEngine ∧
    mgrLoad.current_engine = some goodSherpaEngine ∧
    (some brokenVoskEngine : Option Engine) ≠ some goodSherpaEngine := by
  decide
/-- C1 amended: `load_model` leaves the whole manager state (in particular
`current_engine`) unchanged whenever it fails before an adapter is
constructed: unknown model name, empty path, missing path, or file-validation
failure. (Failures of the post-construction checks inside
`initialize_engine` do replace `current_engine`: see the counterexample.) -/
theorem C1_load_model_atomic_early (env : Env) (m : Manager) (name : String)
    (h : ∀ cfg, lookupCfg m.models_config name = some cfg →
      cfg.path = "" ∨ env.fs.pathExists cfg.path = false ∨
      validate_model_files m env.fs cfg.path (some name) = false) :
    (load_model env m name).1 = false ∧ (load_model env m name).2.1 = m := by
  unfold load_model
  cases hc : lookupCfg m.models_config name with
  | none => exact ⟨rfl, rfl⟩
  | some cfg =>
    dsimp only
    by_cases hp : (cfg.path == "") = true
    · rw [if_pos hp]
      exact ⟨rfl, rfl⟩
    · rw [if_neg hp]
      by_cases hq : (!env.fs.pathExists cfg.path) = true
      · rw [if_pos hq]
        exact ⟨rfl, rfl⟩
      · rw [if_neg hq]
        have h3 : validate_model_files m env.fs cfg.path (some name) = false := by
          rcases h cfg hc with h1 | h1 | h1
          · exact absurd (by rw [h1]; rfl) hp
          · exact absurd (by rw [h1]; rfl) hq
          · exact h1
        rw [if_pos (by rw [h3]; rfl)]
        exact ⟨rfl, rfl⟩
/-- C1 witness: loading a name absent from the configuration. -/
theorem C1_load_model_atomic_early_witness :
    (load_model envLoad mgrLoad "missing_model").1 = false ∧
    (load_model envLoad mgrLoad "missing_model").2.1 = mgrLoad :=
  C1_load_model_atomic_early envLoad mgrLoad "missing_model"
    (fun cfg hcfg => by
      rw [show lookupCfg mgrLoad.models_config "missing_model" = none from rfl] at hcfg
      cases hcfg)
/-! ## C4: no silent engine substitution for file transcription -/

theorem fixVoskEngine_fields (e : Engine) :
    (fixVoskEngine e).cls = e.cls ∧
      (fixVoskEngine e).has_transcribe_file = e.has_transcribe_file := by
  unfold fixVoskEngine
  split
  · exact ⟨rfl, rfl⟩
  · exact ⟨rfl, rfl⟩
theorem inferEngineType_snd_cases (e : Engine) :
    (inferEngineType e).2 = e ∨ (inferEngineType e).2 = fixVoskEngine e := by
  unfold inferEngineType
  split
  · exact Or.inr rfl
  · split
    · exact Or.inl rfl
    · split
      · split
        · split <;> exact Or.inl rfl
        · split <;> exact Or.inl rfl
      · exact Or.inl rfl
/-- `get_current_engine_type` may fix a Vosk adapter's `engine_type`
attribute but never changes its class or its `transcribe_file` capability,
and never removes or replaces the adapter. -/
theorem get_current_engine_type_preserves (m : Manager) (e : Engine)
    (he : m.current_engine = some e) :
    ∃ e2, (get_current_engine_type m).2.current_engine = some e2 ∧
      e2.cls = e.cls ∧ e2.has_transcribe_file = e.has_transcribe_file := by
  unfold get_current_engine_type
  rw [he]
  dsimp only
  split
  · exact ⟨fixVoskEngine e, rfl, (fixVoskEngine_fields e).1, (fixVoskEngine_fields e).2⟩
  · split
    · exact ⟨e, he, rfl, rfl⟩
    · have hfe := finalizeEngineType_engine
        {m with current_engine := some (inferEngineType e).2} (inferEngineType e).1
      rcases inferEngineType_snd_cases e with h2 | h2
      · refine ⟨e, ?ce, rfl, rfl⟩
        rw [hfe]
        simp only [h2]
      · refine ⟨fixVoskEngine e, ?cf, (fixVoskEngine_fields e).1, (fixVoskEngine_fields e).2⟩
        rw [hfe]
        simp only [h2]
/-- After `finalizeEngineType`, the returned engine type never disagrees
with the stored `model_type` when both are truthy. -/
theorem finalizeEngineType_no_mismatch (m : Manager) (et : Option String) :
    (truthy (finalizeEngineType m et).2.model_type &&
      truthy (finalizeEngineType m et).1 &&
      ((finalizeEngineType m et).2.model_type != (finalizeEngineType m et).1)) = false := by
  unfold finalizeEngineType
  by_cases h1 : (truthy m.model_type && truthy et && (m.model_type != et)) = true
  · rw [if_pos h1]
    simp
  · rw [if_neg h1]
    by_cases h2 : (!truthy m.model_type && truthy et) = true
    · rw [if_pos h2]
      simp
    · rw [if_neg h2]
      by_cases h3 : truthy et = true
      · rw [if_pos h3]
        cases hx : (truthy m.model_type && truthy et && (m.model_type != et)) with
        | false => rfl
        | true => exact absurd hx h1
      · rw [if_neg h3]
        by_cases h4 : truthy m.model_type = true
        · rw [if_pos h4]
          simp
        · rw [if_neg h4]
          simp [truthy]
/-- After `get_current_engine_type`, the reported type never disagrees with
the stored `model_type` when both are truthy: the consistency re-check at
line 835 of `transcribe_file` can never fire. -/
theorem get_current_engine_type_no_mismatch (m : Manager) :
    (truthy (get_current_engine_type m).2.model_type &&
      truthy (get_current_engine_type m).1 &&
      ((get_current_engine_type m).2.model_type != (get_current_engine_type m).1)) = false := by
  unfold get_current_engine_type
  cases hce : m.current_engine with
  | none => exact finalizeEngineType_no_mismatch m none
  | some e =>
    dsimp only
    split
    · by_cases hx : (m.model_type != some "vosk_small") = true
      · rw [if_pos hx]
        simp
      · rw [if_neg hx]
        have hmt : (m.model_type != some "vosk_small") = false := by
          cases hy : (m.model_type != some "vosk_small") with
          | false => rfl
          | true => exact absurd hy hx
        simp [hmt]
    · split
      · simp
      · exact finalizeEngineType_no_mismatch _ _
/-- C4: whenever the loaded adapter lacks the `transcribe_file` capability,
`transcribe_file` returns `none`, and the adapter is not substituted: the
engine left in place has the same class and still lacks the capability
(only the Vosk `engine_type` attribute fix of `get_current_engine_type` may
have been applied). -/
theorem C4_no_file_capability (env : Env) (m : Manager) (e : Engine) (file_path : String)
    (he : m.current_engine = some e) (hcap : e.has_transcribe_file = false) :
    (transcribe_file env m file_path).1 = none ∧
    ∃ e2, (transcribe_file env m file_path).2.current_engine = some e2 ∧
      e2.cls = e.cls ∧ e2.has_transcribe_file = false := by
  obtain ⟨e2, he2, hcls2, hcap2⟩ := get_current_engine_type_preserves m e he
  have hmm := get_current_engine_type_no_mismatch m
  have hn : m.current_engine.isNone = false := by rw [he]; rfl
  have hc2 : e2.has_transcribe_file = false := hcap2.trans hcap
  have key : transcribe_file env m file_path = (none, (get_current_engine_type m).2) := by
    unfold transcribe_file
    rw [hn]
    simp only [Bool.false_eq_true, if_false]
    rw [hn]
    simp only [Bool.false_eq_true, if_false]
    rw [hmm]
    simp only [Bool.false_eq_true, if_false]
    rw [he2]
    simp only []
    rw [hc2]
    simp only [Bool.not_false, if_true]
  rw [key]
  exact ⟨rfl, e2, he2, hcls2, hc2⟩
/-- C4 witness: a Vosk adapter without `transcribe_file`. -/
theorem C4_no_file_capability_witness :
    (transcribe_file envLoad mgrNoCap "f.wav").1 = none ∧
    ∃ e2, (transcribe_file envLoad mgrNoCap "f.wav").2.current_engine = some e2 ∧
      e2.cls = ({ cls := EngineClass.voskASR } : Engine).cls ∧
      e2.has_transcribe_file = false :=
  C4_no_file_capability envLoad mgrNoCap { cls := EngineClass.voskASR } "f.wav" rfl rfl
/-! ## C8: progress monotonicity and bounds -/

theorem readProgress_ge (d : Rat) (b : Nat) : 20 ≤ readProgress d b :=
  Nat.le_add_right 20 _
theorem readProgress_le (d : Rat) (b : Nat) : readProgress d b ≤ 50 := by
  unfold readProgress
  have h := Nat.min_le_left 30
    ((((b : Rat) / (16000 * 2) / d) * 30).floor.toNat)
  omega
theorem readProgress_mono (d : Rat) (hd : 0 < d) {a b : Nat} (hab : a ≤ b) :
    readProgress d a ≤ readProgress d b := by
  unfold readProgress
  have h1 : ((a : Rat) / (16000 * 2) / d * 30) ≤ ((b : Rat) / (16000 * 2) / d * 30) := by
    apply mul_le_mul_of_nonneg_right _ (by norm_num)
    apply (div_le_div_right hd).mpr
    apply (div_le_div_right (by norm_num : (0 : Rat) < 16000 * 2)).mpr
    exact_mod_cast hab
  have h2 := Int.floor_le_floor h1
  have h3 := Int.toNat_le_toNat h2
  exact Nat.add_le_add_left (min_le_min (Nat.le_refl 30) h3) 20
theorem readEmits_sorted_bounds (d : Rat) (hd : 0 < d) (chunks : List (Nat × Bool)) :
    ∀ acc : Nat,
      List.Sorted (· ≤ ·) (readEmits d acc chunks) ∧
      ∀ x ∈ readEmits d acc chunks, readProgress d acc ≤ x ∧ 20 ≤ x ∧ x ≤ 50 := by
  induction chunks with
  | nil =>
    intro acc
    constructor
    · exact List.sorted_nil
    · intro x hx
      simp [readEmits] at hx
  | cons cb rest ih =>
    intro acc
    obtain ⟨c, b⟩ := cb
    obtain ⟨ihs, ihb⟩ := ih (acc + c)
    have hstep : readProgress d acc ≤ readProgress d (acc + c) :=
      readProgress_mono d hd (Nat.le_add_right acc c)
    cases b with
    | false =>
      have hre : readEmits d acc ((c, false) :: rest) = readEmits d (acc + c) rest := by
        simp [readEmits]
      rw [hre]
      constructor
      · exact ihs
      · intro x hx
        obtain ⟨h1, h2, h3⟩ := ihb x hx
        exact ⟨le_trans hstep h1, h2, h3⟩
    | true =>
      have hre : readEmits d acc ((c, true) :: rest) =
          readProgress d (acc + c) :: readEmits d (acc + c) rest := by
        simp [readEmits]
      rw [hre]
      constructor
      · rw [List.sorted_cons]
        exact ⟨fun x hx => (ihb x hx).1, ihs⟩
      · intro x hx
        rcases List.mem_cons.mp hx with rfl | hx2
        · exact ⟨hstep, readProgress_ge d _, readProgress_le d _⟩
        · obtain ⟨h1, h2, h3⟩ := ihb x hx2
          exact ⟨le_trans hstep h1, h2, h3⟩
theorem procProgress_ge (t i : Nat) : 50 ≤ procProgress t i :=
  Nat.le_add_right 50 _
theorem procProgress_le (t i : Nat) : procProgress t i ≤ 99 := by
  unfold procProgress
  have h := Nat.min_le_left 49 ((((i : Rat) / (t : Rat)) * 49).floor.toNat)
  omega
theorem procProgress_mono (t : Nat) {i j : Nat} (hij : i ≤ j) :
    procProgress t i ≤ procProgress t j := by
  unfold procProgress
  have h1 : ((i : Rat) / (t : Rat) * 49) ≤ ((j : Rat) / (t : Rat) * 49) := by
    apply mul_le_mul_of_nonneg_right _ (by norm_num)
    rcases Nat.eq_zero_or_pos t with ht | ht
    · simp [ht]
    · apply (div_le_div_right (by exact_mod_cast ht : (0 : Rat) < (t : Rat))).mpr
      exact_mod_cast hij
  have h2 := Int.floor_le_floor h1
  have h3 := Int.toNat_le_toNat h2
  exact Nat.add_le_add_left (min_le_min (Nat.le_refl 49) h3) 50
theorem procEmits_sorted_bounds (t : Nat) (ticks : List Bool) :
    ∀ i : Nat,
      List.Sorted (· ≤ ·) (procEmits t i ticks) ∧
      ∀ x ∈ procEmits t i ticks, procProgress t i ≤ x ∧ 50 ≤ x ∧ x ≤ 99 := by
  induction ticks with
  | nil =>
    intro i
    constructor
    · exact List.sorted_nil
    · intro x hx
      simp [procEmits] at hx
  | cons b rest ih =>
    intro i
    obtain ⟨ihs, ihb⟩ := ih (i + 1)
    have hstep : procProgress t i ≤ procProgress t (i + 1) :=
      procProgress_mono t (Nat.le_succ i)
    cases b with
    | false =>
      have hre : procEmits t i (false :: rest) = procEmits t (i + 1) rest := by
        simp [procEmits]
      rw [hre]
      constructor
      · exact ihs
      · intro x hx
        obtain ⟨h1, h2, h3⟩ := ihb x hx
        exact ⟨le_trans hstep h1, h2, h3⟩
    | true =>
      have hre : procEmits t i (true :: rest) =
          procProgress t i :: procEmits t (i + 1) rest := by
        simp [procEmits]
      rw [hre]
      constructor
      · rw [List.sorted_cons]
        refine ⟨fun x hx => ?gx, ihs⟩
        exact le_trans hstep (ihb x hx).1
      · intro x hx
        rcases List.mem_cons.mp hx with rfl | hx2
        · exact ⟨Nat.le_refl _, procProgress_ge t _, procProgress_le t _⟩
        · obtain ⟨h1, h2, h3⟩ := ihb x hx2
          exact ⟨le_trans hstep h1, h2, h3⟩
theorem sorted_le_append {l1 l2 : List Nat} (h1 : List.Sorted (· ≤ ·) l1)
    (h2 : List.Sorted (· ≤ ·) l2) (h12 : ∀ a ∈ l1, ∀ b ∈ l2, a ≤ b) :
    List.Sorted (· ≤ ·) (l1 ++ l2) :=
  List.pairwise_append.mpr ⟨h1, h2, h12⟩
/-- C8: within one job, the emitted progress values are monotone
non-decreasing and lie in 0-100 (values are naturals, so only the upper
bound is stated), and a job that runs to `Done` ends on exactly 100 — for
both the manager-delegation path and the Vosk path of the pipeline. -/
theorem C8_progress (duration : Rat) (hd : 0 < duration)
    (chunks : List (Nat × Bool)) (proc_ticks : List Bool) (convert_ok completed : Bool) :
    List.Sorted (· ≤ ·)
      (_transcribe_file_with_vosk_progress duration chunks proc_ticks convert_ok completed) ∧
    (∀ x ∈ _transcribe_file_with_vosk_progress duration chunks proc_ticks convert_ok completed,
      x ≤ 100) ∧
    (convert_ok = true → completed = true →
      (_transcribe_file_with_vosk_progress duration chunks proc_ticks convert_ok
        completed).getLast? = some 100) ∧
    List.Sorted (· ≤ ·) _transcribe_file_with_manager_progress ∧
    (∀ x ∈ _transcribe_file_with_manager_progress, x ≤ 100) ∧
    _transcribe_file_with_manager_progress.getLast? = some 100 := by
  obtain ⟨hres, hreb⟩ := readEmits_sorted_bounds duration hd chunks 0
  obtain ⟨hpes, hpeb⟩ := procEmits_sorted_bounds chunks.length proc_ticks 0
  have hTs : List.Sorted (· ≤ ·) (if completed then [100] else ([] : List Nat)) := by
    cases completed <;> simp
  have hTm : ∀ x ∈ (if completed then [100] else ([] : List Nat)), x = 100 := by
    cases completed <;> simp
  cases convert_ok with
  | false =>
    have hL : _transcribe_file_with_vosk_progress duration chunks proc_ticks false completed
        = [5] := by
      simp [_transcribe_file_with_vosk_progress]
    rw [hL]
    exact ⟨by decide, by decide, fun h => absurd h (by decide), by decide, by decide, rfl⟩
  | true =>
    have hL : _transcribe_file_with_vosk_progress duration chunks proc_ticks true completed
        = [5, 20] ++ (readEmits duration 0 chunks ++
            (procEmits chunks.length 0 proc_ticks ++
              (if completed then [100] else []))) := by
      simp [_transcribe_file_with_vosk_progress]
    rw [hL]
    have hXm : ∀ x ∈ readEmits duration 0 chunks ++
        (procEmits chunks.length 0 proc_ticks ++
          (if completed then [100] else ([] : List Nat))), 20 ≤ x ∧ x ≤ 100 := by
      intro x hx
      rcases List.mem_append.mp hx with hx | hx
      · obtain ⟨_, h2, h3⟩ := hreb x hx
        exact ⟨h2, le_trans h3 (by norm_num)⟩
      · rcases List.mem_append.mp hx with hx | hx
        · obtain ⟨_, h2, h3⟩ := hpeb x hx
          exact ⟨le_trans (by norm_num) h2, le_trans h3 (by norm_num)⟩
        · rw [hTm x hx]
          exact ⟨by norm_num, Nat.le_refl _⟩
    have hXs : List.Sorted (· ≤ ·) (readEmits duration 0 chunks ++
        (procEmits chunks.length 0 proc_ticks ++
          (if completed then [100] else ([] : List Nat)))) := by
      refine sorted_le_append hres (sorted_le_append hpes hTs ?cr2) ?cross
      · intro a ha b hb
        rw [hTm b hb]
        exact le_trans (hpeb a ha).2.2 (by norm_num)
      · intro a ha b hb
        have h50 : a ≤ 50 := (hreb a ha).2.2
        rcases List.mem_append.mp hb with hb | hb
        · exact le_trans h50 (le_trans (by norm_num) (hpeb b hb).2.1)
        · rw [hTm b hb]
          exact le_trans h50 (by norm_num)
    refine ⟨?sorted, ?bounds, ?last, by decide, by decide, rfl⟩
    · refine sorted_le_append (by decide) hXs ?cr
      intro a ha b hb
      have ha20 : a ≤ 20 := by
        simp only [List.mem_cons, List.mem_singleton] at ha
        rcases ha with rfl | ha
        · omega
        · simp only [List.not_mem_nil, or_false] at ha
          omega
      exact le_trans ha20 (hXm b hb).1
    · intro x hx
      rcases List.mem_append.mp hx with hx | hx
      · simp only [List.mem_cons, List.mem_singleton] at hx
        rcases hx with rfl | hx
        · omega
        · simp only [List.not_mem_nil, or_false] at hx
          omega
      · exact (hXm x hx).2
    · intro _ hcomp
      subst hcomp
      have hTr : (if (true : Bool) then [100] else ([] : List Nat)) = [100] := rfl
      rw [hTr, List.getLast?_append, List.getLast?_append, List.getLast?_append]
      rfl
/-- C8 witness at a concrete job. -/
theorem C8_progress_witness :
    (0 : Rat) < 10 ∧
    (List.Sorted (· ≤ ·)
      (_transcribe_file_with_vosk_progress 10 [(4000, true)] [true] true true) ∧
    (∀ x ∈ _transcribe_file_with_vosk_progress 10 [(4000, true)] [true] true true,
      x ≤ 100) ∧
    (true = true → true = true →
      (_transcribe_file_with_vosk_progress 10 [(4000, true)] [true] true
        true).getLast? = some 100) ∧
    List.Sorted (· ≤ ·) _transcribe_file_with_manager_progress ∧
    (∀ x ∈ _transcribe_file_with_manager_progress, x ≤ 100) ∧
    _transcribe_file_with_manager_progress.getLast? = some 100) :=
  ⟨by norm_num, C8_progress 10 (by norm_num) [(4000, true)] [true] true true⟩
